import Mathlib

/-!
A verification development for the Kilo-Kit skill validator
(`src/tools/validate-skill.py`).  The Python source is shallowly embedded:
pure functions become Lean functions, the mutable `ValidationResult` becomes
explicit state passing, and Python operations that can raise (`TypeError`
from `re.match` on a non-string, or from ordering incomparable values)
return `Except Unit`.  YAML decoding (`yaml.safe_load`, an external library)
is a parameter of type `String → Except Unit Val`; everything else is
translated directly from the source.
-/

set_option maxRecDepth 10000

/-- Issue severities, from the `Severity` enum. -/
inductive Severity where
  | error
  | warning
  | info
deriving DecidableEq

/-- One reported issue, from the `ValidationIssue` dataclass. -/
structure ValidationIssue where
  severity : Severity
  message : String
  location : String
  suggestion : Option String
deriving DecidableEq

/-- Decoded YAML values (the image of `yaml.safe_load` relevant to the
validator): strings, integers, booleans, lists, string-keyed mappings and
null.  Mappings are insertion-ordered association lists, as Python dicts
are. -/
inductive Val where
  | str (s : String)
  | int (n : Int)
  | bool (b : Bool)
  | list (l : List Val)
  | map (m : List (String × Val))
  | null

/-- Values stored in `ValidationResult.metadata`: either a decoded YAML
value (the raw frontmatter) or a list of strings (keywords, section
names). -/
inductive MetaVal where
  | v (x : Val)
  | strs (l : List String)

/-- The `ValidationResult` dataclass. -/
structure ValidationResult where
  skill_path : String
  valid : Bool
  issues : List ValidationIssue
  metadata : List (String × MetaVal)

/-- `ValidationResult.add_issue`: appends an issue and latches `valid` to
`false` whenever the severity is `error`. -/
def ValidationResult.add_issue (r : ValidationResult) (severity : Severity)
    (message : String) (location : String) (suggestion : Option String) :
    ValidationResult :=
  { r with
    issues := r.issues ++ [⟨severity, message, location, suggestion⟩],
    valid := if severity = Severity.error then false else r.valid }

/-- Appending a computed list of issues one by one through `add_issue`.
Each straight-line block of the Python source that only calls
`result.add_issue(...)` is embedded as a pure issue list applied through
this function. -/
def addIssues (r : ValidationResult) (l : List ValidationIssue) : ValidationResult :=
  l.foldl (fun r i => r.add_issue i.severity i.message i.location i.suggestion) r

/-- Python-dict style update on an association list: an existing key is
overwritten in place, a new key is appended at the end. -/
def dictSet (d : List (String × String)) (k v : String) : List (String × String) :=
  if (d.lookup k).isSome then d.map (fun p => if p.1 = k then (p.1, v) else p)
  else d ++ [(k, v)]

/-- Python-dict style update for the `metadata` mapping. -/
def setMeta (d : List (String × MetaVal)) (k : String) (v : MetaVal) :
    List (String × MetaVal) :=
  if (d.lookup k).isSome then d.map (fun p => if p.1 = k then (p.1, v) else p)
  else d ++ [(k, v)]

/-- Python truthiness of a decoded value (`bool(v)`). -/
def pyTruthy : Val → Bool
  | .str s => ¬ s.isEmpty
  | .int n => n ≠ 0
  | .bool b => b
  | .list l => ¬ l.isEmpty
  | .map m => ¬ m.isEmpty
  | .null => false

/-- Booleans are the integers 0 and 1 for Python's numeric comparisons. -/
def bint (b : Bool) : Int := if b then 1 else 0

/-- Python `==` on decoded values: numeric across int/bool, elementwise on
lists, and structural otherwise (mapping equality is keyed on the decoded
insertion order, which is how equal YAML mappings arise here).  `==` never
raises in Python, so this is total. -/
def pyEq : Val → Val → Bool
  | .int a, .int b => a = b
  | .int a, .bool b => a = bint b
  | .bool a, .int b => bint a = b
  | .bool a, .bool b => a = b
  | .str a, .str b => a = b
  | .null, .null => true
  | .list [], .list [] => true
  | .list (x :: xs), .list (y :: ys) => pyEq x y && pyEq (.list xs) (.list ys)
  | .map [], .map [] => true
  | .map ((k, v) :: ms), .map ((k2, v2) :: ms2) =>
      k = k2 && pyEq v v2 && pyEq (.map ms) (.map ms2)
  | _, _ => false

/-- Code-point lexicographic comparison of strings, as Python compares
`str` values. -/
def strCmp : List Char → List Char → Ordering
  | [], [] => .eq
  | [], _ :: _ => .lt
  | _ :: _, [] => .gt
  | a :: as, b :: bs =>
      if a.val < b.val then .lt else if b.val < a.val then .gt else strCmp as bs

/-- Python three-way ordering of decoded values.  Lists compare
lexicographically, using `==` first on each pair (so equal but unorderable
elements are passed over, exactly as Python's list comparison does); any
other pair of unequal, unorderable values raises `TypeError`, modelled as
`Except.error`. -/
def pyCmp : Val → Val → Except Unit Ordering
  | .int a, .int b => .ok (compare a b)
  | .int a, .bool b => .ok (compare a (bint b))
  | .bool a, .int b => .ok (compare (bint a) b)
  | .bool a, .bool b => .ok (compare (bint a) (bint b))
  | .str a, .str b => .ok (strCmp a.data b.data)
  | .list [], .list [] => .ok .eq
  | .list [], .list (_ :: _) => .ok .lt
  | .list (_ :: _), .list [] => .ok .gt
  | .list (x :: xs), .list (y :: ys) =>
      match pyCmp x y with
      | .ok .eq => pyCmp (.list xs) (.list ys)
      | other => other
  | a, b => if pyEq a b then .ok .eq else .error ()

/-- The pairs of values Python's `<=` accepts at top level (a bare
`{} <= {}` or `None <= None` raises even though the operands are equal,
unlike the elementwise `==` used inside list comparison). -/
def orderableKinds : Val → Val → Bool
  | .int _, .int _ => true
  | .int _, .bool _ => true
  | .bool _, .int _ => true
  | .bool _, .bool _ => true
  | .str _, .str _ => true
  | .list _, .list _ => true
  | _, _ => false

/-- Python `a <= b` on decoded values; `TypeError` becomes `Except.error`. -/
def pyLe (a b : Val) : Except Unit Bool :=
  if orderableKinds a b then do
    let c ← pyCmp a b
    pure (c ≠ .gt)
  else .error ()

/-- Python's chained `a <= b <= c`: the second comparison is evaluated only
when the first holds. -/
def chainedLe (a b c : Val) : Except Unit Bool := do
  let x ← pyLe a b
  if x then pyLe b c else pure false

/-- Python `str()` of a decoded value, as fed to the version-format rule.
Containers render bracketed (`[...]`/`{...}`); since no bracketed string
can match the `digits.digits.digits` pattern, their element rendering is
abbreviated. -/
def pyStr : Val → String
  | .str s => s
  | .int n => toString n
  | .bool b => if b then "True" else "False"
  | .null => "None"
  | .list _ => "[...]"
  | .map _ => "\x7b...\x7d"

/-- Python `str.strip()`: whitespace removed from both ends.  (Stated over
character lists; the Lean `String` API is avoided throughout so that every
definition reduces in the kernel.) -/
def trimChars (l : List Char) : List Char :=
  ((l.dropWhile Char.isWhitespace).reverse.dropWhile Char.isWhitespace).reverse

/-- Python `str.split(sep)` for a one-character separator: every occurrence
splits, empty parts are kept. -/
def splitOnChar (sep : Char) : List Char → List (List Char)
  | [] => [[]]
  | c :: t =>
      let r := splitOnChar sep t
      if c = sep then [] :: r
      else
        match r with
        | h :: t2 => (c :: h) :: t2
        | [] => [[c]]

/-- Joining with a one-character separator (Python `sep.join`). -/
def intercalateChar (sep : Char) : List (List Char) → List Char
  | [] => []
  | [x] => x
  | x :: xs => x ++ sep :: intercalateChar sep xs

/-- Python `str.lower()` (ASCII; the titles and rule constants in scope are
ASCII). -/
def lowerChars (l : List Char) : List Char := l.map Char.toLower

/-- Index of the first occurrence of `needle` in the given list, counting
from `i`; models `str.index` scanning from a start offset (the caller drops
the skipped prefix). -/
def findFrom (needle : List Char) : List Char → Nat → Option Nat
  | [], i => if needle.isEmpty then some i else none
  | c :: t, i =>
      if needle.isPrefixOf (c :: t) then some i else findFrom needle t (i + 1)

/-- `parse_frontmatter` (validate-skill.py, lines 75-87).  The YAML decoder
is the `yaml` parameter; `yaml.safe_load` failures and the `ValueError`
from a missing closing delimiter are both swallowed, falling back to an
empty mapping with the original full text as body.  A falsy decode result
(`None`, `{}`, ...) is normalised to the empty mapping by
`frontmatter or {}`. -/
def parse_frontmatter (yaml : String → Except Unit Val) (content : String) :
    Val × String :=
  if ['-', '-', '-'].isPrefixOf content.data then
    match findFrom ['-', '-', '-'] (content.data.drop 3) 3 with
    | none => (Val.map [], content)
    | some i =>
        let fmStr := String.mk (trimChars ((content.data.drop 3).take (i - 3)))
        let body := String.mk (trimChars (content.data.drop (i + 3)))
        match yaml fmStr with
        | .error _ => (Val.map [], content)
        | .ok v => ((if pyTruthy v then v else Val.map []), body)
  else (Val.map [], content)

/-- Word characters of the heading-prefix pattern `[^\w\s]`: alphanumeric
or underscore (the headings in scope are ASCII words, possibly preceded by
decorative symbols, which are neither word nor space characters). -/
def isWordChar (c : Char) : Bool := c.isAlphanum || c = '_'

/-- The heading-title cleanup `re.sub(r'^[^\w\s]+\s*', '', s)`: one leading
run of non-word, non-space glyphs is removed together with the whitespace
that follows it; if the title does not start with such a glyph the pattern
does not match and the title is unchanged. -/
def stripTitle (s : String) : String :=
  let l := s.data
  let glyphs := l.takeWhile (fun c => ¬ isWordChar c && ¬ c.isWhitespace)
  if glyphs.isEmpty then s
  else String.mk ((l.drop glyphs.length).dropWhile Char.isWhitespace)

/-- `'\n'.join(content).strip()`. -/
def joinTrim (ls : List String) : String :=
  String.mk (trimChars (intercalateChar '\n' (ls.map String.data)))

/-- The line scan of `extract_sections` (lines 90-110).  State: remaining
lines, the current section title (`none` before the first heading;
Python's `if current_section:` is falsy for an empty title, so an
empty-titled section collects nothing and is never stored), accumulated
content lines, and the sections written so far. -/
def sectionsGo : List String → Option String → List String →
    List (String × String) → List (String × String)
  | [], cur, content, sections =>
      match cur with
      | some sec =>
          if sec.isEmpty then sections else dictSet sections sec (joinTrim content)
      | none => sections
  | line :: rest, cur, content, sections =>
      if ['#', '#', ' '].isPrefixOf line.data then
        let sections :=
          match cur with
          | some sec =>
              if sec.isEmpty then sections else dictSet sections sec (joinTrim content)
          | none => sections
        sectionsGo rest (some (stripTitle (String.mk (trimChars (line.data.drop 3))))) [] sections
      else
        match cur with
        | some sec =>
            if sec.isEmpty then sectionsGo rest cur content sections
            else sectionsGo rest cur (content ++ [line]) sections
        | none => sectionsGo rest cur content sections

/-- `extract_sections`: ordered mapping from cleaned heading title to
trimmed section content. -/
def extract_sections (body : String) : List (String × String) :=
  sectionsGo ((splitOnChar '\n' body.data).map String.mk) none [] []

/-- Case-insensitive literal match: `pat` (given in lowercase) against a
prefix of the input, returning the rest on success. -/
def matchCI : List Char → List Char → Option (List Char)
  | [], s => some s
  | _ :: _, [] => none
  | p :: ps, c :: cs => if c.toLower = p then matchCI ps cs else none

/-- The label part `Keywords?:` of the keyword pattern, matched
case-insensitively at the current position; returns the text after the
colon.  The two expansions of the optional `s` are mutually exclusive, so
no further backtracking between them is needed. -/
def kwLabelAt (s : List Char) : Option (List Char) :=
  match matchCI "keyword".data s with
  | none => none
  | some rest =>
      match rest with
      | 's' :: ':' :: r => some r
      | 'S' :: ':' :: r => some r
      | ':' :: r => some r
      | _ => none

/-- The tail `\s*(.+)` of the keyword pattern with Python's backtracking:
`\s*` is greedy (and `\s` includes newlines), giving back characters until
`.+` can match at least one non-newline character; the group then extends
to the end of that line. -/
def kwTail : List Char → Option (List Char)
  | [] => none
  | c :: t =>
      if c.isWhitespace then
        match kwTail t with
        | some g => some g
        | none => if c = '\n' then none else some ((c :: t).takeWhile (· ≠ '\n'))
      else some ((c :: t).takeWhile (· ≠ '\n'))

/-- `re.search(r'Keywords?:\s*(.+)', desc, re.IGNORECASE)`: the leftmost
start position where the whole pattern matches, returning the captured
group. -/
def kwSearch : List Char → Option (List Char)
  | [] => none
  | c :: t =>
      match kwLabelAt (c :: t) with
      | some rest =>
          match kwTail rest with
          | some g => some g
          | none => kwSearch t
      | none => kwSearch t

/-- Whether the label `Keywords?:` occurs anywhere in the text (the part of
the pattern before the captured group). -/
def hasLabel : List Char → Bool
  | [] => false
  | c :: t => (kwLabelAt (c :: t)).isSome || hasLabel t

/-- `extract_keywords` (lines 113-120): the captured group split on commas,
each term stripped; empty when the pattern does not match. -/
def extract_keywords (description : String) : List String :=
  match kwSearch description.data with
  | some g => (splitOnChar ',' g).map (fun k => String.mk (trimChars k))
  | none => []

/-- Substring test: whether `needle` occurs contiguously in `hay`
(Python's `in` on strings; the empty needle always occurs). -/
def hasSub (needle : List Char) : List Char → Bool
  | [] => needle.isEmpty
  | c :: t => needle.isPrefixOf (c :: t) || hasSub needle t

/-- A trailing newline that the `$` anchor of Python's fullmatch-style
patterns tolerates: `$` matches at the end of the string or just before a
string-final newline. -/
def dropFinalNl (l : List Char) : List Char :=
  match l.getLast? with
  | some '\n' => l.dropLast
  | _ => l

/-- `re.match(r'^[a-z0-9-]+$', name)` viewed as a boolean. -/
def namePatOk (s : String) : Bool :=
  let l := dropFinalNl s.data
  ¬ l.isEmpty && l.all (fun c => c.isLower || c.isDigit || c = '-')

/-- One all-digit, nonempty version component. -/
def digitsOk (l : List Char) : Bool := ¬ l.isEmpty && l.all Char.isDigit

/-- `re.match(r'^\d+\.\d+\.\d+$', version)` viewed as a boolean. -/
def semverOk (s : String) : Bool :=
  match splitOnChar '.' (dropFinalNl s.data) with
  | [a, b, c] => digitsOk a && digitsOk b && digitsOk c
  | _ => false

/-- A match of `###\s*Phase` (case-insensitive) at the current position,
returning the rest of the text after the match.  `Phase` starts with a
non-whitespace character, so the greedy `\s*` needs no backtracking. -/
def phaseAt (s : List Char) : Option (List Char) :=
  match s with
  | '#' :: '#' :: '#' :: rest => matchCI "phase".data (rest.dropWhile Char.isWhitespace)
  | _ => none

/-- `re.findall` counting of non-overlapping `###\s*Phase` matches,
resuming after each match.  The fuel is the text length; every step
consumes at least one character, so it never runs out early. -/
def countPhasesGo : Nat → List Char → Nat
  | 0, _ => 0
  | _ + 1, [] => 0
  | fuel + 1, c :: t =>
      match phaseAt (c :: t) with
      | some rest => 1 + countPhasesGo fuel rest
      | none => countPhasesGo fuel t

/-- Number of `###\s*Phase` matches in a section's content. -/
def countPhases (s : List Char) : Nat := countPhasesGo s.length s

/-- A match of `###?\s*DO` (case-insensitive) at the current position; the
trailing `\s*[emoji]?` of the source pattern is entirely optional and so
cannot affect whether a match exists.  The optional third `#` is tried
greedily, then without. -/
def doAt (s : List Char) : Bool :=
  match s with
  | '#' :: '#' :: rest =>
      (match rest with
       | '#' :: r2 => (matchCI "do".data (r2.dropWhile Char.isWhitespace)).isSome
       | _ => false)
      || (matchCI "do".data (rest.dropWhile Char.isWhitespace)).isSome
  | _ => false

/-- `re.search` existence for the DO-subsection pattern. -/
def hasDoMark : List Char → Bool
  | [] => false
  | c :: t => doAt (c :: t) || hasDoMark t

/-- The tail `DON'?T` of the DON'T pattern, after the hashes and
whitespace: `DON`, an optional apostrophe, then `T`, case-insensitively. -/
def dontTail (l : List Char) : Bool :=
  match matchCI "don".data l with
  | none => false
  | some r =>
      match r with
      | '\'' :: r2 => (matchCI "t".data r2).isSome
      | _ => (matchCI "t".data r).isSome

/-- A match of `###?\s*DON'?T` (case-insensitive) at the current position;
as with `doAt`, the trailing optional parts of the source pattern cannot
affect existence. -/
def dontAt (s : List Char) : Bool :=
  match s with
  | '#' :: '#' :: rest =>
      (match rest with
       | '#' :: r2 => dontTail (r2.dropWhile Char.isWhitespace)
       | _ => false)
      || dontTail (rest.dropWhile Char.isWhitespace)
  | _ => false

/-- `re.search` existence for the DON'T-subsection pattern. -/
def hasDontMark : List Char → Bool
  | [] => false
  | c :: t => dontAt (c :: t) || hasDontMark t

/-- `REQUIRED_FRONTMATTER` (line 56). -/
def REQUIRED_FRONTMATTER : List String := ["name", "description", "version"]

/-- `RECOMMENDED_FRONTMATTER` (line 57). -/
def RECOMMENDED_FRONTMATTER : List String := ["behaviors", "token_estimate", "dependencies"]

/-- `REQUIRED_SECTIONS` (lines 60-64). -/
def REQUIRED_SECTIONS : List String := ["When to Use", "Process", "Guidelines"]

/-- `RECOMMENDED_SECTIONS` (lines 65-69). -/
def RECOMMENDED_SECTIONS : List String := ["Prerequisites", "Success Criteria", "Related Skills"]

/-- `MIN_KEYWORDS` (line 72). -/
def MIN_KEYWORDS : Nat := 3

/-- The required-field test `field not in frontmatter or not
frontmatter[field]`. -/
def fieldMissingOrFalsy (fm : List (String × Val)) (f : String) : Bool :=
  match fm.lookup f with
  | none => true
  | some v => ¬ pyTruthy v

/-- Issues of the required-field loop (lines 126-133), in field order. -/
def requiredFieldIssues (fm : List (String × Val)) : List ValidationIssue :=
  (REQUIRED_FRONTMATTER.filter (fieldMissingOrFalsy fm)).map (fun f =>
    ⟨.error, "Missing required frontmatter field: " ++ f, "frontmatter",
      some ("Add '" ++ f ++ ":' to the YAML frontmatter")⟩)

/-- Issues of the recommended-field loop (lines 136-143). -/
def recommendedFieldIssues (fm : List (String × Val)) : List ValidationIssue :=
  (RECOMMENDED_FRONTMATTER.filter (fun f => (fm.lookup f).isNone)).map (fun f =>
    ⟨.warning, "Missing recommended field: " ++ f, "frontmatter",
      some ("Consider adding '" ++ f ++ ":' for better skill discoverability")⟩)

/-- The name-format rule (lines 146-154).  `re.match` on a non-string
raises `TypeError`, modelled as `Except.error`. -/
def nameIssues (fm : List (String × Val)) : Except Unit (List ValidationIssue) :=
  match fm.lookup "name" with
  | none => .ok []
  | some (.str name) =>
      .ok (if namePatOk name then []
        else [⟨.warning,
          "Skill name '" ++ name ++ "' should be kebab-case (lowercase with dashes)",
          "frontmatter.name", some "Use format like 'my-skill-name'"⟩])
  | some _ => .error ()

/-- The keyword rule over the description (lines 157-168): the extracted
keyword list to record in the metadata (when a description is present) and
the possible keyword-count warning.  `re.search` on a non-string
description raises `TypeError`. -/
def descriptionEval (fm : List (String × Val)) :
    Except Unit (Option (List String) × List ValidationIssue) :=
  match fm.lookup "description" with
  | none => .ok (none, [])
  | some (.str desc) =>
      let keywords := extract_keywords desc
      .ok (some keywords,
        if keywords.length < MIN_KEYWORDS then
          [⟨.warning,
            "Description has " ++ toString keywords.length ++ " keywords, recommend at least 3",
            "frontmatter.description",
            some "Add 'Keywords: keyword1, keyword2, keyword3' to description"⟩]
        else [])
  | some _ => .error ()

/-- The version-format rule (lines 171-179); `str()` makes it total. -/
def versionIssues (fm : List (String × Val)) : List ValidationIssue :=
  match fm.lookup "version" with
  | none => []
  | some v =>
      let s := pyStr v
      if semverOk s then []
      else [⟨.warning, "Version '" ++ s ++ "' should follow semver format (x.y.z)",
        "frontmatter.version", some "Use format like '1.0.0'"⟩]

/-- The per-key warnings of the token-estimate rule, in `[min, typical,
max]` order. -/
def teMissingWarns (te : List (String × Val)) : List ValidationIssue :=
  (["min", "typical", "max"].filter (fun k => (te.lookup k).isNone)).map (fun k =>
    ⟨.warning, "token_estimate missing '" ++ k ++ "'", "frontmatter.token_estimate", none⟩)

/-- The ordering error of the token-estimate rule. -/
def teOrderError : ValidationIssue :=
  ⟨.error, "token_estimate values should be: min <= typical <= max",
    "frontmatter.token_estimate", none⟩

/-- The body of the token-estimate rule once the field is known to be a
mapping: per-key warnings, then, when all three keys are present, the
chained comparison, whose `TypeError` on incomparable values
propagates. -/
def teFromMap (te : List (String × Val)) : Except Unit (List ValidationIssue) :=
  match te.lookup "min", te.lookup "typical", te.lookup "max" with
  | some a, some b, some c =>
      match chainedLe a b c with
      | .error e => .error e
      | .ok ok => .ok (teMissingWarns te ++ if ok then [] else [teOrderError])
  | _, _, _ => .ok (teMissingWarns te)

/-- The token-estimate rule (lines 182-199): nothing unless the field is
present and is a mapping. -/
def tokenEstimateIssues (fm : List (String × Val)) : Except Unit (List ValidationIssue) :=
  match fm.lookup "token_estimate" with
  | some (.map te) => teFromMap te
  | _ => .ok []

/-- `validate_frontmatter` (lines 123-199): the six rule blocks in source
order, threaded through the mutable result; the keyword list is recorded in
`metadata["keywords"]` before the keyword-count warning is appended, as in
the source. -/
def validate_frontmatter (fm : List (String × Val)) (result : ValidationResult) :
    Except Unit ValidationResult :=
  let r1 := addIssues result (requiredFieldIssues fm)
  let r2 := addIssues r1 (recommendedFieldIssues fm)
  match nameIssues fm with
  | .error e => .error e
  | .ok ni =>
    let r3 := addIssues r2 ni
    match descriptionEval fm with
    | .error e => .error e
    | .ok (kws, di) =>
      let r4 := match kws with
        | some l => { r3 with metadata := setMeta r3.metadata "keywords" (MetaVal.strs l) }
        | none => r3
      let r5 := addIssues r4 di
      let r6 := addIssues r5 (versionIssues fm)
      match tokenEstimateIssues fm with
      | .error e => .error e
      | .ok ti => .ok (addIssues r6 ti)

/-- Case-insensitive substring test of a required/recommended section title
against the extracted titles: `any(section.lower() in s.lower() for s in
section_names)`. -/
def sectionFound (names : List String) (sec : String) : Bool :=
  names.any (fun s => hasSub (lowerChars sec.data) (lowerChars s.data))

/-- Issues of the required-section loop (lines 207-215). -/
def requiredSectionIssues (names : List String) : List ValidationIssue :=
  (REQUIRED_SECTIONS.filter (fun sec => ¬ sectionFound names sec)).map (fun sec =>
    ⟨.error, "Missing required section: '## " ++ sec ++ "'", "body",
      some ("Add a '## " ++ sec ++ "' section to the skill")⟩)

/-- Issues of the recommended-section loop (lines 218-225). -/
def recommendedSectionIssues (names : List String) : List ValidationIssue :=
  (RECOMMENDED_SECTIONS.filter (fun sec => ¬ sectionFound names sec)).map (fun sec =>
    ⟨.info, "Consider adding section: '## " ++ sec ++ "'", "body", none⟩)

/-- The process-structure rule (lines 228-241): the first section whose
title contains "process", counted for `### Phase` sub-headings. -/
def processIssues (sections : List (String × String)) : List ValidationIssue :=
  match sections.find? (fun p => hasSub "process".data (lowerChars p.1.data)) with
  | none => []
  | some p =>
      let n := countPhases p.2.data
      if n < 2 then
        [⟨.info, "Process section has " ++ toString n ++ " phases, consider adding more structure",
          "section.Process", none⟩]
      else []

/-- The guidelines-structure rule (lines 244-265): the first section whose
title contains "guidelines", checked for DO and DON'T sub-headings. -/
def guidelinesIssues (sections : List (String × String)) : List ValidationIssue :=
  match sections.find? (fun p => hasSub "guidelines".data (lowerChars p.1.data)) with
  | none => []
  | some p =>
      (if hasDoMark p.2.data then []
       else [⟨.info, "Guidelines section missing '### DO ✅' subsection", "section.Guidelines", none⟩])
      ++
      (if hasDontMark p.2.data then []
       else [⟨.info, "Guidelines section missing '### DON'T ❌' subsection", "section.Guidelines", none⟩])

/-- All issues produced by `validate_sections`, in source order. -/
def sectionIssues (sections : List (String × String)) : List ValidationIssue :=
  requiredSectionIssues (sections.map Prod.fst)
  ++ recommendedSectionIssues (sections.map Prod.fst)
  ++ processIssues sections
  ++ guidelinesIssues sections

/-- `validate_sections` (lines 202-265): a total function appending its
issues to the result. -/
def validate_sections (sections : List (String × String)) (result : ValidationResult) :
    ValidationResult :=
  addIssues result (sectionIssues sections)

/-- Issues of the document-length check (lines 344-359), parameterised by
the character length of the whole file content and the location string. -/
def lengthIssues (n : Nat) (loc : String) : List ValidationIssue :=
  if n < 500 then
    [⟨.warning, "SKILL.md seems too short (" ++ toString n ++ " chars)", loc,
      some "Add more detail to make the skill useful"⟩]
  else if n > 50000 then
    [⟨.warning, "SKILL.md is very long (" ++ toString n ++ " chars)", loc,
      some "Consider moving detail to references/"⟩]
  else []

/-- The content pipeline of `validate_skill` (lines 326-361): frontmatter
parse, the no-frontmatter check or the frontmatter rules plus
`metadata["frontmatter"]`, section extraction and rules plus
`metadata["sections"]`, then the length check.  A truthy non-mapping decode
result is outside `validate_frontmatter`'s declared `Dict` parameter type
and the dict operations applied to it misbehave; that corner is modelled as
a failure. -/
def validateContent (yaml : String → Except Unit Val) (skillMd : String)
    (content : String) (result : ValidationResult) : Except Unit ValidationResult :=
  match parse_frontmatter yaml content with
  | (fmv, body) =>
    let step1 : Except Unit ValidationResult :=
      if pyTruthy fmv then
        match fmv with
        | Val.map fm =>
            match validate_frontmatter fm result with
            | .error e => .error e
            | .ok r1 => .ok { r1 with metadata := setMeta r1.metadata "frontmatter" (MetaVal.v fmv) }
        | _ => .error ()
      else
        .ok (result.add_issue .error "No YAML frontmatter found" skillMd
          (some "Add YAML frontmatter between --- markers at the start"))
    match step1 with
    | .error e => .error e
    | .ok r1 =>
      let sections := extract_sections body
      let r2 := validate_sections sections r1
      let r3 := { r2 with metadata := setMeta r2.metadata "sections" (MetaVal.strs (sections.map Prod.fst)) }
      .ok (addIssues r3 (lengthIssues content.length skillMd))

/-- The filesystem facts `validate_skill` consults about one skill
directory, with the outcome of reading its primary file (`ReadError`
carries the exception text interpolated into the message). -/
structure Doc where
  isDir : Bool
  hasSkillMd : Bool
  hasReferences : Bool
  hasScripts : Bool
  content : Except String String

/-- `validate_structure` (lines 268-301): a missing `SKILL.md` is a single
terminal error (the optional-directory checks are skipped by the early
return); otherwise `info` issues for missing optional directories.  The
boolean reports whether the primary file was found. -/
def validate_structure (p : String) (d : Doc) (r : ValidationResult) :
    ValidationResult × Bool :=
  if ¬ d.hasSkillMd then
    (r.add_issue .error "Missing SKILL.md file" p
      (some "Create a SKILL.md file using the template"), false)
  else
    let r := if ¬ d.hasReferences then
        r.add_issue .info "No 'references/' directory (optional)" p
          (some "Add references/ for detailed documentation if needed")
      else r
    let r := if ¬ d.hasScripts then
        r.add_issue .info "No 'scripts/' directory (optional)" p
          (some "Add scripts/ for helper utilities if needed")
      else r
    (r, true)

/-- `validate_skill` (lines 304-361) for one document: directory check,
structure check (terminal when `SKILL.md` is missing), read (terminal on
`ReadError`), then the content pipeline.  `str(skill_md)` is the path
joined with `/SKILL.md`. -/
def validate_skill (yaml : String → Except Unit Val) (p : String) (d : Doc) :
    Except Unit ValidationResult :=
  let r : ValidationResult := ⟨p, true, [], []⟩
  if ¬ d.isDir then .ok (r.add_issue .error "Path is not a directory" p none)
  else
    match validate_structure p d r with
    | (r1, false) => .ok r1
    | (r1, true) =>
      match d.content with
      | .error e => .ok (r1.add_issue .error ("Cannot read SKILL.md: " ++ e) (p ++ "/SKILL.md") none)
      | .ok content => validateContent yaml (p ++ "/SKILL.md") content r1

/-- `mapM` for `Except`, written out: the batch loop of `main` (lines
459-462) collects one result per document in order and an uncaught
exception from any document aborts the whole loop. -/
def mapMEx (f : α → Except Unit β) : List α → Except Unit (List β)
  | [] => .ok []
  | a :: t =>
      match f a with
      | .error e => .error e
      | .ok b =>
          match mapMEx f t with
          | .error e => .error e
          | .ok bs => .ok (b :: bs)

/-- The batch over a sequence of identified documents. -/
def runBatch (yaml : String → Except Unit Val) (docs : List (String × Doc)) :
    Except Unit (List ValidationResult) :=
  mapMEx (fun pd => validate_skill yaml pd.1 pd.2) docs

/-- The result `validate_skill` returns for an existing directory whose
`SKILL.md` is missing. -/
def missingResult (p : String) : ValidationResult :=
  ⟨p, false,
    [⟨.error, "Missing SKILL.md file", p, some "Create a SKILL.md file using the template"⟩],
    []⟩

/-- Crash-free surface of an `Except`: whether it is `ok`. -/
def exOk : Except Unit α → Bool
  | .ok _ => true
  | .error _ => false

/-- A fresh result for a document, as `validate_skill` creates it. -/
def initResult (p : String) : ValidationResult := ⟨p, true, [], []⟩

/-- Whether an issue is one of the required-frontmatter-field `error`
Findings. -/
def isReqFieldError (i : ValidationIssue) : Bool :=
  decide (i.severity = Severity.error) &&
  (i.message = "Missing required frontmatter field: name"
    || i.message = "Missing required frontmatter field: description"
    || i.message = "Missing required frontmatter field: version")

/-- Whether an issue is the no-frontmatter `error` Finding. -/
def isNoFmError (i : ValidationIssue) : Bool :=
  decide (i.severity = Severity.error) && i.message = "No YAML frontmatter found"

/-- The arguments of one `add_issue` call, for stating properties of
arbitrary operation sequences on a `ValidationResult`. -/
structure IssueOp where
  severity : Severity
  message : String
  location : String
  suggestion : Option String

/-- A sequence of `add_issue` operations applied in order. -/
def applyOps (r : ValidationResult) (ops : List IssueOp) : ValidationResult :=
  ops.foldl (fun r o => r.add_issue o.severity o.message o.location o.suggestion) r

/-- The typed-field discipline under which the frontmatter rules cannot
raise: `name` and `description` are strings when present, and
`token_estimate` values under `min`/`typical`/`max` are mutually
comparable whenever all three are present. -/
def wellTypedFM (fm : List (String × Val)) : Bool :=
  (match fm.lookup "name" with
   | some (.str _) => true
   | none => true
   | some _ => false) &&
  (match fm.lookup "description" with
   | some (.str _) => true
   | none => true
   | some _ => false) &&
  (match fm.lookup "token_estimate" with
   | some (.map te) =>
       (match te.lookup "min", te.lookup "typical", te.lookup "max" with
        | some a, some b, some c => exOk (chainedLe a b c)
        | _, _, _ => true)
   | _ => true)

/-! Basic lemmas about the result model. -/

theorem add_issue_issues (r : ValidationResult) (s : Severity) (m l : String)
    (sug : Option String) :
    (r.add_issue s m l sug).issues = r.issues ++ [⟨s, m, l, sug⟩] := rfl

theorem add_issue_metadata (r : ValidationResult) (s : Severity) (m l : String)
    (sug : Option String) : (r.add_issue s m l sug).metadata = r.metadata := rfl

theorem add_issue_path (r : ValidationResult) (s : Severity) (m l : String)
    (sug : Option String) : (r.add_issue s m l sug).skill_path = r.skill_path := rfl

theorem add_issue_valid (r : ValidationResult) (s : Severity) (m l : String)
    (sug : Option String) :
    (r.add_issue s m l sug).valid = if s = Severity.error then false else r.valid := rfl

theorem addIssues_cons (r : ValidationResult) (i : ValidationIssue) (t : List ValidationIssue) :
    addIssues r (i :: t) = addIssues (r.add_issue i.severity i.message i.location i.suggestion) t := rfl

theorem addIssues_issues (r : ValidationResult) (l : List ValidationIssue) :
    (addIssues r l).issues = r.issues ++ l := by
  induction l generalizing r with
  | nil => simp [addIssues]
  | cons i t ih => rw [addIssues_cons, ih, add_issue_issues]; simp

theorem addIssues_metadata (r : ValidationResult) (l : List ValidationIssue) :
    (addIssues r l).metadata = r.metadata := by
  induction l generalizing r with
  | nil => rfl
  | cons i t ih => rw [addIssues_cons, ih, add_issue_metadata]

theorem addIssues_path (r : ValidationResult) (l : List ValidationIssue) :
    (addIssues r l).skill_path = r.skill_path := by
  induction l generalizing r with
  | nil => rfl
  | cons i t ih => rw [addIssues_cons, ih, add_issue_path]

theorem addIssues_valid_false (r : ValidationResult) (l : List ValidationIssue)
    (h : r.valid = false) : (addIssues r l).valid = false := by
  induction l generalizing r with
  | nil => exact h
  | cons i t ih => rw [addIssues_cons]; exact ih _ (by rw [add_issue_valid, h]; simp)

theorem applyOps_valid_false (r : ValidationResult) (ops : List IssueOp)
    (h : r.valid = false) : (applyOps r ops).valid = false := by
  induction ops generalizing r with
  | nil => exact h
  | cons o t ih =>
      show (applyOps (r.add_issue o.severity o.message o.location o.suggestion) t).valid = false
      exact ih _ (by rw [add_issue_valid, h]; simp)

/-- C3: appending an `error` Finding makes `valid` false, and it stays
false under every later sequence of `add_issue` operations; appending a
`warning` or `info` Finding never changes `valid`. -/
theorem c3_valid_latch (r : ValidationResult) (m l : String) (sug : Option String)
    (ops : List IssueOp) :
    (r.add_issue Severity.error m l sug).valid = false
    ∧ (applyOps (r.add_issue Severity.error m l sug) ops).valid = false
    ∧ ∀ sev, sev ≠ Severity.error → (r.add_issue sev m l sug).valid = r.valid := by
  refine ⟨by rw [add_issue_valid]; simp, ?_, ?_⟩
  · exact applyOps_valid_false _ ops (by rw [add_issue_valid]; simp)
  · intro sev hsev
    rw [add_issue_valid, if_neg hsev]

/-- Witness for C3 at a concrete result and operation sequence. -/
theorem c3_witness :
    ((initResult "p").add_issue Severity.error "boom" "" none).valid = false
    ∧ (applyOps ((initResult "p").add_issue Severity.error "boom" "" none)
        [⟨Severity.warning, "w", "", none⟩, ⟨Severity.info, "i", "", none⟩]).valid = false
    ∧ ((initResult "p").add_issue Severity.warning "w" "" none).valid = (initResult "p").valid :=
  ⟨(c3_valid_latch (initResult "p") "boom" "" none
      [⟨Severity.warning, "w", "", none⟩, ⟨Severity.info, "i", "", none⟩]).1,
   (c3_valid_latch (initResult "p") "boom" "" none
      [⟨Severity.warning, "w", "", none⟩, ⟨Severity.info, "i", "", none⟩]).2.1,
   (c3_valid_latch (initResult "p") "w" "" none []).2.2 Severity.warning (by decide)⟩

/-- C9: the length rule emits exactly one `warning` when the total
character length is under 500 (short message) or over 50000 (long
message), and nothing otherwise. -/
theorem c9_length_rule (n : Nat) (loc : String) :
    (n < 500 → lengthIssues n loc =
       [⟨Severity.warning, "SKILL.md seems too short (" ++ toString n ++ " chars)", loc,
         some "Add more detail to make the skill useful"⟩])
    ∧ (50000 < n → lengthIssues n loc =
       [⟨Severity.warning, "SKILL.md is very long (" ++ toString n ++ " chars)", loc,
         some "Consider moving detail to references/"⟩])
    ∧ (500 ≤ n → n ≤ 50000 → lengthIssues n loc = [])
    ∧ (lengthIssues n loc).countP (fun i => decide (i.severity = Severity.warning))
        = (if n < 500 ∨ 50000 < n then 1 else 0) := by
  refine ⟨?_, ?_, ?_, ?_⟩
  · intro h; simp [lengthIssues, h]
  · intro h; rw [lengthIssues, if_neg (by omega), if_pos h]
  · intro h1 h2; rw [lengthIssues, if_neg (by omega), if_neg (by omega)]
  · by_cases h1 : n < 500
    · simp [lengthIssues, h1]
    · by_cases h2 : 50000 < n
      · rw [lengthIssues, if_neg h1, if_pos h2, if_pos (Or.inr h2)]; rfl
      · rw [lengthIssues, if_neg h1, if_neg h2, if_neg (by omega)]; rfl

/-- Witness for C9: 499 characters trigger the short-length warning,
500 do not. -/
theorem c9_witness :
    lengthIssues 499 "p" =
      [⟨Severity.warning, "SKILL.md seems too short (" ++ toString 499 ++ " chars)", "p",
        some "Add more detail to make the skill useful"⟩]
    ∧ lengthIssues 500 "p" = [] :=
  ⟨(c9_length_rule 499 "p").1 (by decide),
   (c9_length_rule 500 "p").2.2.1 (by decide) (by decide)⟩

/-! Comparison lemmas for the token-estimate rule. -/

theorem pyLe_int (a b : Int) : pyLe (Val.int a) (Val.int b) = .ok (decide (a ≤ b)) := by
  simp [pyLe, orderableKinds, pyCmp, Bind.bind, Except.bind, pure, Except.pure]
  simp [compare_gt_iff_gt]
  by_cases h : a ≤ b
  · simp [h, show ¬ b < a from by omega]
  · simp [h, show b < a from by omega]

theorem chainedLe_int (a b c : Int) :
    chainedLe (Val.int a) (Val.int b) (Val.int c) = .ok (decide (a ≤ b) && decide (b ≤ c)) := by
  rw [chainedLe]
  simp [pyLe_int, Bind.bind, Except.bind]
  by_cases h : a ≤ b
  · simp [h, pure, Except.pure]
  · simp [h, pure, Except.pure]

/-- C5: when `token_estimate` is present and is a mapping, one `warning` is
emitted per missing key among min/typical/max (and no `error`); when all
three keys are present with numeric values, exactly one `error` is emitted
if and only if `min <= typical <= max` fails. -/
theorem c5_token_estimate (fm te : List (String × Val))
    (hte : fm.lookup "token_estimate" = some (Val.map te)) :
    (((te.lookup "min").isNone ∨ (te.lookup "typical").isNone ∨ (te.lookup "max").isNone) →
        tokenEstimateIssues fm = .ok (teMissingWarns te)
        ∧ (teMissingWarns te).countP (fun i => decide (i.severity = Severity.warning))
            = (["min", "typical", "max"].filter (fun k => (te.lookup k).isNone)).length
        ∧ (teMissingWarns te).countP (fun i => decide (i.severity = Severity.error)) = 0)
    ∧ (∀ a b c : Int, te.lookup "min" = some (Val.int a) →
        te.lookup "typical" = some (Val.int b) → te.lookup "max" = some (Val.int c) →
        tokenEstimateIssues fm = .ok (if a ≤ b ∧ b ≤ c then [] else [teOrderError])
        ∧ ((if a ≤ b ∧ b ≤ c then ([] : List ValidationIssue) else [teOrderError]).countP
            (fun i => decide (i.severity = Severity.error)) = 1 ↔ ¬ (a ≤ b ∧ b ≤ c))) := by
  have hwarn : ∀ i ∈ teMissingWarns te, i.severity = Severity.warning := by
    intro i hi
    rw [teMissingWarns] at hi
    obtain ⟨k, hk, rfl⟩ := List.mem_map.mp hi
    rfl
  have hred : tokenEstimateIssues fm = teFromMap te := by rw [tokenEstimateIssues, hte]
  constructor
  · intro h
    have hok : tokenEstimateIssues fm = .ok (teMissingWarns te) := by
      rw [hred, teFromMap]
      cases hm : te.lookup "min" with
      | none => rfl
      | some a =>
        cases ht : te.lookup "typical" with
        | none => rfl
        | some b =>
          cases hx : te.lookup "max" with
          | none => rfl
          | some c => simp [hm, ht, hx] at h
    refine ⟨hok, ?_, ?_⟩
    · rw [List.countP_eq_length.mpr (by intro i hi; simp [hwarn i hi]), teMissingWarns,
        List.length_map]
    · exact List.countP_eq_zero.mpr (by intro i hi; simp [hwarn i hi])
  · intro a b c hm ht hx
    constructor
    · simp only [hred, teFromMap, hm, ht, hx, chainedLe_int]
      have hnil : teMissingWarns te = [] := by
        rw [teMissingWarns]
        simp [List.filter, hm, ht, hx]
      by_cases hab : a ≤ b ∧ b ≤ c
      · simp [hnil, hab]
      · rw [if_neg hab]
        have : (decide (a ≤ b) && decide (b ≤ c)) = false := by
          rcases Decidable.not_and_iff_or_not.mp hab with h | h <;> simp [h]
        simp [hnil, this]
    · by_cases hab : a ≤ b ∧ b ≤ c
      · simp [hab]
      · simp [hab]
        rfl

/-- Witness for C5: `min 10, typical 5, max 20` fires exactly the ordering
`error`; a mapping with only `min` gets the per-key warnings. -/
theorem c5_witness :
    tokenEstimateIssues
        [("token_estimate", Val.map [("min", Val.int 10), ("typical", Val.int 5), ("max", Val.int 20)])]
      = .ok [teOrderError]
    ∧ tokenEstimateIssues [("token_estimate", Val.map [("min", Val.int 1)])]
      = .ok (teMissingWarns [("min", Val.int 1)]) := by
  constructor
  · have h := (c5_token_estimate
      [("token_estimate", Val.map [("min", Val.int 10), ("typical", Val.int 5), ("max", Val.int 20)])]
      [("min", Val.int 10), ("typical", Val.int 5), ("max", Val.int 20)] rfl).2 10 5 20 rfl rfl rfl
    rw [h.1, if_neg (by omega)]
  · exact ((c5_token_estimate [("token_estimate", Val.map [("min", Val.int 1)])]
      [("min", Val.int 1)] rfl).1 (Or.inr (Or.inl rfl))).1

/-- C6: the section scan discards content lines before the first heading
(first conjunct, for any prefix of non-heading lines); duplicate headings
overwrite in place, so two `## Guidelines` blocks leave one entry holding
only the second block's content while key order is preserved (second and
third conjuncts, which also show the final open section being flushed at
end of input); leading glyph runs are stripped from titles and titles and
content are trimmed (fourth conjunct). -/
theorem c6_section_extraction :
    (∀ pre rest s, (∀ l ∈ pre, ['#', '#', ' '].isPrefixOf l.data = false) →
        sectionsGo (pre ++ rest) none [] s = sectionsGo rest none [] s)
    ∧ extract_sections "intro\n## Guidelines\nfirst\n## Guidelines\nsecond\ntail"
        = [("Guidelines", "second\ntail")]
    ∧ extract_sections "## B\none\n## A\ntwo\n## B\nthree" = [("B", "three"), ("A", "two")]
    ∧ extract_sections "## 🔥 Guidelines  \n  content  " = [("Guidelines", "content")] := by
  refine ⟨?_, by decide, by decide, by decide⟩
  intro pre rest s h
  induction pre with
  | nil => rfl
  | cons l t ih =>
      have hl : ['#', '#', ' '].isPrefixOf l.data = false := h l (by simp)
      have ih' := ih (fun x hx => h x (by simp [hx]))
      simpa [sectionsGo, hl] using ih'

/-- Witness for C6's general conjunct at a concrete prefix. -/
theorem c6_witness :
    sectionsGo (["before", "also before"] ++ ["## A", "x"]) none [] []
      = sectionsGo ["## A", "x"] none [] [] :=
  c6_section_extraction.1 ["before", "also before"] ["## A", "x"] [] (by decide)

theorem benign_of_not_error (i : ValidationIssue) (h : ¬ i.severity = Severity.error) :
    isReqFieldError i = false ∧ isNoFmError i = false := by
  constructor <;> simp [isReqFieldError, isNoFmError, h]

theorem recommendedSectionIssues_info (names : List String) :
    ∀ i ∈ recommendedSectionIssues names, i.severity = Severity.info := by
  intro i hi
  rw [recommendedSectionIssues] at hi
  obtain ⟨sec, _, rfl⟩ := List.mem_map.mp hi
  rfl

theorem processIssues_info (s : List (String × String)) :
    ∀ i ∈ processIssues s, i.severity = Severity.info := by
  intro i hi
  cases hf : s.find? (fun p => hasSub "process".data (lowerChars p.1.data)) with
  | none => simp [processIssues, hf] at hi
  | some p =>
      by_cases hn : countPhases p.2.data < 2
      · simp [processIssues, hf, hn] at hi
        rw [hi]
      · simp [processIssues, hf, hn] at hi

theorem guidelinesIssues_info (s : List (String × String)) :
    ∀ i ∈ guidelinesIssues s, i.severity = Severity.info := by
  intro i hi
  cases hf : s.find? (fun p => hasSub "guidelines".data (lowerChars p.1.data)) with
  | none => simp [guidelinesIssues, hf] at hi
  | some p =>
      by_cases hdo : hasDoMark p.2.data
      · by_cases hdont : hasDontMark p.2.data
        · simp [guidelinesIssues, hf, hdo, hdont] at hi
        · simp [guidelinesIssues, hf, hdo, hdont] at hi
          rw [hi]
      · by_cases hdont : hasDontMark p.2.data
        · simp [guidelinesIssues, hf, hdo, hdont] at hi
          rw [hi]
        · simp [guidelinesIssues, hf, hdo, hdont] at hi
          rcases hi with hi | hi <;> rw [hi]

theorem requiredSectionIssues_benign (names : List String) :
    ∀ i ∈ requiredSectionIssues names, isReqFieldError i = false ∧ isNoFmError i = false := by
  intro i hi
  rw [requiredSectionIssues] at hi
  obtain ⟨sec, hsec, rfl⟩ := List.mem_map.mp hi
  have hmem : sec ∈ REQUIRED_SECTIONS := (List.mem_filter.mp hsec).1
  simp [REQUIRED_SECTIONS] at hmem
  rcases hmem with rfl | rfl | rfl <;> exact ⟨by decide, by decide⟩

theorem lengthIssues_warning (n : Nat) (p : String) :
    ∀ i ∈ lengthIssues n p, i.severity = Severity.warning := by
  intro i hi
  by_cases h1 : n < 500
  · simp [lengthIssues, h1] at hi
    rw [hi]
  · by_cases h2 : 50000 < n
    · simp [lengthIssues, h1, h2] at hi
      rw [hi]
    · simp [lengthIssues, h1, h2] at hi

theorem sectionIssues_benign (s : List (String × String)) :
    ∀ i ∈ sectionIssues s, isReqFieldError i = false ∧ isNoFmError i = false := by
  intro i hi
  rw [sectionIssues] at hi
  rcases List.mem_append.mp hi with habc | hd
  · rcases List.mem_append.mp habc with hab | hc
    · rcases List.mem_append.mp hab with ha | hb
      · exact requiredSectionIssues_benign _ i ha
      · exact benign_of_not_error i (by rw [recommendedSectionIssues_info _ i hb]; decide)
    · exact benign_of_not_error i (by rw [processIssues_info _ i hc]; decide)
  · exact benign_of_not_error i (by rw [guidelinesIssues_info _ i hd]; decide)

theorem validateContent_falsy (yaml : String → Except Unit Val) (p content : String)
    (r : ValidationResult) (b : String)
    (hparse : parse_frontmatter yaml content = (Val.map [], b)) :
    ∃ res, validateContent yaml p content r = .ok res
      ∧ res.issues = r.issues
          ++ ⟨Severity.error, "No YAML frontmatter found", p,
              some "Add YAML frontmatter between --- markers at the start"⟩
            :: (sectionIssues (extract_sections b) ++ lengthIssues content.length p) := by
  have hrun : validateContent yaml p content r
      = .ok (addIssues
          { validate_sections (extract_sections b)
              (r.add_issue Severity.error "No YAML frontmatter found" p
                (some "Add YAML frontmatter between --- markers at the start")) with
            metadata := setMeta (validate_sections (extract_sections b)
              (r.add_issue Severity.error "No YAML frontmatter found" p
                (some "Add YAML frontmatter between --- markers at the start"))).metadata
              "sections" (MetaVal.strs ((extract_sections b).map Prod.fst)) }
          (lengthIssues content.length p)) := by
    simp only [validateContent, hparse]
    rfl
  refine ⟨_, hrun, ?_⟩
  rw [addIssues_issues]
  show (validate_sections (extract_sections b) _).issues ++ _ = _
  rw [validate_sections, addIssues_issues, add_issue_issues]
  simp [List.append_assoc]

theorem validateContent_falsy_counts (yaml : String → Except Unit Val) (p content : String)
    (r : ValidationResult) (b : String)
    (hparse : parse_frontmatter yaml content = (Val.map [], b)) :
    ∃ res, validateContent yaml p content r = .ok res
      ∧ res.issues.countP isNoFmError = r.issues.countP isNoFmError + 1
      ∧ res.issues.countP isReqFieldError = r.issues.countP isReqFieldError := by
  obtain ⟨res, hrun, hiss⟩ := validateContent_falsy yaml p content r b hparse
  have hsN : (sectionIssues (extract_sections b)).countP isNoFmError = 0 :=
    List.countP_eq_zero.mpr (fun i hi => by simp [(sectionIssues_benign _ i hi).2])
  have hsR : (sectionIssues (extract_sections b)).countP isReqFieldError = 0 :=
    List.countP_eq_zero.mpr (fun i hi => by simp [(sectionIssues_benign _ i hi).1])
  have hlN : (lengthIssues content.length p).countP isNoFmError = 0 :=
    List.countP_eq_zero.mpr (fun i hi => by
      simp [(benign_of_not_error i (by rw [lengthIssues_warning _ _ i hi]; decide)).2])
  have hlR : (lengthIssues content.length p).countP isReqFieldError = 0 :=
    List.countP_eq_zero.mpr (fun i hi => by
      simp [(benign_of_not_error i (by rw [lengthIssues_warning _ _ i hi]; decide)).1])
  refine ⟨res, hrun, ?_, ?_⟩
  · rw [hiss, List.countP_append, List.countP_cons, List.countP_append, hsN, hlN]
    norm_num [isNoFmError]
  · rw [hiss, List.countP_append, List.countP_cons, List.countP_append, hsR, hlR]
    norm_num [isReqFieldError]
    refine ⟨⟨?_, ?_⟩, ?_⟩ <;> decide

/-- When the text does not begin with the delimiter, the splitter returns
the empty mapping and the untouched input text. -/
theorem parse_frontmatter_no_delim (yaml : String → Except Unit Val) (content : String)
    (h : ['-', '-', '-'].isPrefixOf content.data = false) :
    parse_frontmatter yaml content = (Val.map [], content) := by
  rw [parse_frontmatter, if_neg (by simp [h])]

/-- When a closing delimiter exists but the decoder fails, the splitter
swallows the failure and returns the empty mapping with the original full
text. -/
theorem parse_frontmatter_decode_failure (yaml : String → Except Unit Val) (content : String)
    (i : Nat)
    (h1 : ['-', '-', '-'].isPrefixOf content.data = true)
    (h2 : findFrom ['-', '-', '-'] (content.data.drop 3) 3 = some i)
    (h3 : yaml (String.mk (trimChars ((content.data.drop 3).take (i - 3)))) = .error ()) :
    parse_frontmatter yaml content = (Val.map [], content) := by
  simp only [parse_frontmatter, h1, h2, h3]
  rfl

/-- When the decoder succeeds with a falsy value (`None` or `{}`), the
splitter normalises it to the empty mapping, with the trimmed after-block
text as body. -/
theorem parse_frontmatter_falsy_decode (yaml : String → Except Unit Val) (content : String)
    (i : Nat) (v : Val)
    (h1 : ['-', '-', '-'].isPrefixOf content.data = true)
    (h2 : findFrom ['-', '-', '-'] (content.data.drop 3) 3 = some i)
    (h3 : yaml (String.mk (trimChars ((content.data.drop 3).take (i - 3)))) = .ok v)
    (h4 : pyTruthy v = false) :
    parse_frontmatter yaml content
      = (Val.map [], String.mk (trimChars (content.data.drop (i + 3)))) := by
  simp only [parse_frontmatter, h1, h2, h3, h4]
  rfl

/-- C4 (amended): for input not beginning with the delimiter the splitter
returns the empty metadata map and the entire input text as body — exactly
as given, not trimmed — and validation then contains one more
no-frontmatter `error` Finding; for input whose metadata block fails to
decode, the splitter returns the empty map and the original full text, and
it never raises (it is a total function).  The amendment drops only the
"equal to the full trimmed input" parenthetical, which `c4_counterexample`
refutes. -/
theorem c4_splitter_fallback (yaml : String → Except Unit Val) (content : String) :
    (['-', '-', '-'].isPrefixOf content.data = false →
        parse_frontmatter yaml content = (Val.map [], content)
        ∧ ∀ p r, ∃ res, validateContent yaml p content r = .ok res
            ∧ res.issues.countP isNoFmError = r.issues.countP isNoFmError + 1)
    ∧ (∀ i, ['-', '-', '-'].isPrefixOf content.data = true →
        findFrom ['-', '-', '-'] (content.data.drop 3) 3 = some i →
        yaml (String.mk (trimChars ((content.data.drop 3).take (i - 3)))) = .error () →
        parse_frontmatter yaml content = (Val.map [], content)) := by
  constructor
  · intro h
    have hp := parse_frontmatter_no_delim yaml content h
    refine ⟨hp, fun p r => ?_⟩
    obtain ⟨res, hrun, hc, _⟩ := validateContent_falsy_counts yaml p content r content hp
    exact ⟨res, hrun, hc⟩
  · intro i h1 h2 h3
    exact parse_frontmatter_decode_failure yaml content i h1 h2 h3

/-- C4 counterexample: for the input `" x"`, which does not begin with the
delimiter, the body returned is the untrimmed original text `" x"`, not the
trimmed input `"x"` that the claim (via its §8 parenthetical) requires. -/
theorem c4_counterexample :
    parse_frontmatter (fun _ => .ok Val.null) " x" = (Val.map [], " x")
    ∧ String.mk (trimChars " x".data) = "x"
    ∧ (" x" : String) ≠ "x" :=
  ⟨rfl, by decide, by decide⟩

/-- Witness for C4 at the delimiter-free input `"hello"`. -/
theorem c4_witness :
    parse_frontmatter (fun _ => .ok Val.null) "hello" = (Val.map [], "hello")
    ∧ ∃ res, validateContent (fun _ => .ok Val.null) "q" "hello" (initResult "q") = .ok res
        ∧ res.issues.countP isNoFmError = (initResult "q").issues.countP isNoFmError + 1 := by
  have h := (c4_splitter_fallback (fun _ => .ok Val.null) "hello").1 (by decide)
  exact ⟨h.1, h.2 "q" (initResult "q")⟩

/-- C1 (amended): when the metadata block fails to decode, the splitter
recovers locally with an empty metadata map and no thrown error; the
frontmatter field rules are then skipped entirely (the empty map fails the
truthiness check), so the absence is caught by a single no-frontmatter
`error` Finding and no per-required-field error is emitted.  The amendment
replaces the claim's "the required-field rule then runs and emits an error
Finding for each required field", which `c1_counterexample` refutes. -/
theorem c1_decode_failure_fallback (yaml : String → Except Unit Val) (content p : String)
    (r : ValidationResult) (i : Nat)
    (h1 : ['-', '-', '-'].isPrefixOf content.data = true)
    (h2 : findFrom ['-', '-', '-'] (content.data.drop 3) 3 = some i)
    (h3 : yaml (String.mk (trimChars ((content.data.drop 3).take (i - 3)))) = .error ()) :
    parse_frontmatter yaml content = (Val.map [], content)
    ∧ ∃ res, validateContent yaml p content r = .ok res
        ∧ res.issues.countP isNoFmError = r.issues.countP isNoFmError + 1
        ∧ res.issues.countP isReqFieldError = r.issues.countP isReqFieldError := by
  have hp := parse_frontmatter_decode_failure yaml content i h1 h2 h3
  exact ⟨hp, validateContent_falsy_counts yaml p content r content hp⟩

/-- C1 counterexample: with a decoder that fails on every block, the
document `"---\nname: q\n---\nbody"` (whose metadata block fails to
decode) yields a result with zero required-field `error` Findings — the
required-field rule did not run, contradicting the claim — and one
no-frontmatter `error` instead. -/
theorem c1_counterexample :
    (fun _ => Except.error () : String → Except Unit Val) "name: q" = .error ()
    ∧ (validateContent (fun _ => .error ()) "p/SKILL.md" "---\nname: q\n---\nbody"
        (initResult "p")).map
        (fun r => (r.issues.countP isReqFieldError, r.issues.countP isNoFmError)) = .ok (0, 1) :=
  ⟨rfl, by rfl⟩

/-- Witness for C1 at a concrete failing decoder and document. -/
theorem c1_witness :
    parse_frontmatter (fun _ => .error ()) "---\nname: q\n---\nx"
      = (Val.map [], "---\nname: q\n---\nx")
    ∧ ∃ res, validateContent (fun _ => .error ()) "s" "---\nname: q\n---\nx" (initResult "s")
        = .ok res
        ∧ res.issues.countP isNoFmError = (initResult "s").issues.countP isNoFmError + 1
        ∧ res.issues.countP isReqFieldError = (initResult "s").issues.countP isReqFieldError :=
  c1_decode_failure_fallback (fun _ => .error ()) "---\nname: q\n---\nx" "s" (initResult "s") 12
    (by decide) (by decide) rfl

/-- C10: a present frontmatter block that decodes to a falsy value (null
or empty mapping, e.g. `---` immediately followed by `---`) behaves like
the no-frontmatter case: the parse returns an empty map, exactly one more
'No YAML frontmatter found' `error` Finding appears, and the frontmatter
field rules are skipped, so no per-field required-field errors appear. -/
theorem c10_empty_frontmatter (yaml : String → Except Unit Val) (content p : String)
    (r : ValidationResult) (i : Nat) (v : Val)
    (h1 : ['-', '-', '-'].isPrefixOf content.data = true)
    (h2 : findFrom ['-', '-', '-'] (content.data.drop 3) 3 = some i)
    (h3 : yaml (String.mk (trimChars ((content.data.drop 3).take (i - 3)))) = .ok v)
    (h4 : pyTruthy v = false) :
    parse_frontmatter yaml content
      = (Val.map [], String.mk (trimChars (content.data.drop (i + 3))))
    ∧ ∃ res, validateContent yaml p content r = .ok res
        ∧ res.issues.countP isNoFmError = r.issues.countP isNoFmError + 1
        ∧ res.issues.countP isReqFieldError = r.issues.countP isReqFieldError := by
  have hp := parse_frontmatter_falsy_decode yaml content i v h1 h2 h3 h4
  exact ⟨hp, validateContent_falsy_counts yaml p content r _ hp⟩

/-- Witness for C10 at `"---\n---\nbody"` with a null-decoding parser. -/
theorem c10_witness :
    parse_frontmatter (fun _ => .ok Val.null) "---\n---\nbody"
      = (Val.map [], String.mk (trimChars ("---\n---\nbody".data.drop (4 + 3))))
    ∧ ∃ res, validateContent (fun _ => .ok Val.null) "s" "---\n---\nbody" (initResult "s")
        = .ok res
        ∧ res.issues.countP isNoFmError = (initResult "s").issues.countP isNoFmError + 1
        ∧ res.issues.countP isReqFieldError = (initResult "s").issues.countP isReqFieldError :=
  c10_empty_frontmatter (fun _ => .ok Val.null) "---\n---\nbody" "s" (initResult "s") 4 Val.null
    (by decide) (by decide) rfl rfl

/-- Under the typed-field discipline, each fallible rule block returns
successfully. -/
theorem wt_components (fm : List (String × Val)) (h : wellTypedFM fm = true) :
    (∃ l, nameIssues fm = .ok l) ∧ (∃ kd, descriptionEval fm = .ok kd)
    ∧ (∃ t, tokenEstimateIssues fm = .ok t) := by
  have h' := h
  rw [wellTypedFM] at h'
  simp only [Bool.and_eq_true] at h'
  obtain ⟨⟨hn, hd⟩, ht⟩ := h'
  refine ⟨?_, ?_, ?_⟩
  · cases hx : fm.lookup "name" with
    | none => exact ⟨[], by rw [nameIssues, hx]⟩
    | some v =>
        cases v with
        | str s => exact ⟨_, by rw [nameIssues, hx]⟩
        | int n => rw [hx] at hn; simp at hn
        | bool b => rw [hx] at hn; simp at hn
        | list l => rw [hx] at hn; simp at hn
        | map m => rw [hx] at hn; simp at hn
        | null => rw [hx] at hn; simp at hn
  · cases hx : fm.lookup "description" with
    | none => exact ⟨_, by rw [descriptionEval, hx]⟩
    | some v =>
        cases v with
        | str s => exact ⟨_, by rw [descriptionEval, hx]⟩
        | int n => rw [hx] at hd; simp at hd
        | bool b => rw [hx] at hd; simp at hd
        | list l => rw [hx] at hd; simp at hd
        | map m => rw [hx] at hd; simp at hd
        | null => rw [hx] at hd; simp at hd
  · cases hx : fm.lookup "token_estimate" with
    | none => exact ⟨[], by rw [tokenEstimateIssues, hx]⟩
    | some v =>
        cases v with
        | map te =>
            rw [hx] at ht
            have ht' : (match te.lookup "min", te.lookup "typical", te.lookup "max" with
              | some a, some b, some c => exOk (chainedLe a b c)
              | _, _, _ => true) = true := ht
            have hred : tokenEstimateIssues fm = teFromMap te := by rw [tokenEstimateIssues, hx]
            cases hm : te.lookup "min" with
            | none => exact ⟨teMissingWarns te, by rw [hred]; simp only [teFromMap, hm]⟩
            | some a =>
              cases htyp : te.lookup "typical" with
              | none => exact ⟨teMissingWarns te, by rw [hred]; simp only [teFromMap, hm, htyp]⟩
              | some b =>
                cases hmax : te.lookup "max" with
                | none =>
                    exact ⟨teMissingWarns te, by rw [hred]; simp only [teFromMap, hm, htyp, hmax]⟩
                | some c =>
                    rw [hm, htyp, hmax] at ht'
                    have ht2 : exOk (chainedLe a b c) = true := ht'
                    cases hc : chainedLe a b c with
                    | error e => rw [hc] at ht2; simp [exOk] at ht2
                    | ok x =>
                        exact ⟨teMissingWarns te ++ if x then [] else [teOrderError],
                          by rw [hred]; simp only [teFromMap, hm, htyp, hmax, hc]⟩
        | str s => exact ⟨[], by rw [tokenEstimateIssues, hx]⟩
        | int n => exact ⟨[], by rw [tokenEstimateIssues, hx]⟩
        | bool b => exact ⟨[], by rw [tokenEstimateIssues, hx]⟩
        | list l => exact ⟨[], by rw [tokenEstimateIssues, hx]⟩
        | null => exact ⟨[], by rw [tokenEstimateIssues, hx]⟩

/-- C2 (amended): over well-typed metadata (string-or-absent `name` and
`description`, mutually comparable `token_estimate` values) the frontmatter
rule evaluations cannot fail and only append Findings — plus the documented
recording of the keyword list in the result metadata; the section rules are
total for all inputs and only append Findings.  The well-typedness
hypothesis is forced by `c2_counterexample`: on arbitrary decoded values
the rules can raise `TypeError`. -/
theorem c2_rules_total_when_well_typed :
    (∀ fm r, wellTypedFM fm = true →
        ∃ res extra, validate_frontmatter fm r = .ok res
          ∧ res.issues = r.issues ++ extra
          ∧ res.skill_path = r.skill_path
          ∧ (res.metadata = r.metadata
             ∨ ∃ kws, res.metadata = setMeta r.metadata "keywords" (MetaVal.strs kws)))
    ∧ (∀ sections r, ∃ extra,
        (validate_sections sections r).issues = r.issues ++ extra
        ∧ (validate_sections sections r).metadata = r.metadata
        ∧ (validate_sections sections r).skill_path = r.skill_path) := by
  constructor
  · intro fm r hwt
    obtain ⟨⟨ni, hni⟩, ⟨kd, hkd⟩, ⟨ti, hti⟩⟩ := wt_components fm hwt
    obtain ⟨kws, di⟩ := kd
    cases kws with
    | none =>
        refine ⟨addIssues (addIssues (addIssues (addIssues (addIssues (addIssues r
            (requiredFieldIssues fm)) (recommendedFieldIssues fm)) ni) di)
            (versionIssues fm)) ti,
          requiredFieldIssues fm ++ (recommendedFieldIssues fm
            ++ (ni ++ (di ++ (versionIssues fm ++ ti)))), ?_, ?_, ?_, Or.inl ?_⟩
        · simp only [validate_frontmatter, hni, hkd, hti]
        · simp [addIssues_issues, List.append_assoc]
        · simp [addIssues_path]
        · simp [addIssues_metadata]
    | some kl =>
        refine ⟨addIssues (addIssues (addIssues
            { addIssues (addIssues (addIssues r (requiredFieldIssues fm))
                (recommendedFieldIssues fm)) ni with
              metadata := setMeta (addIssues (addIssues (addIssues r (requiredFieldIssues fm))
                (recommendedFieldIssues fm)) ni).metadata "keywords" (MetaVal.strs kl) } di)
            (versionIssues fm)) ti,
          requiredFieldIssues fm ++ (recommendedFieldIssues fm
            ++ (ni ++ (di ++ (versionIssues fm ++ ti)))), ?_, ?_, ?_, Or.inr ⟨kl, ?_⟩⟩
        · simp only [validate_frontmatter, hni, hkd, hti]
        · simp [addIssues_issues, List.append_assoc]
        · simp [addIssues_path]
        · simp [addIssues_metadata]
  · intro sections r
    exact ⟨sectionIssues sections,
      by rw [validate_sections, addIssues_issues],
      by rw [validate_sections, addIssues_metadata],
      by rw [validate_sections, addIssues_path]⟩

/-- C2 counterexample: rule evaluation over already-parsed data CAN fail,
contradicting the claim: a non-string truthy `name` (here the integer 5)
reaches `re.match`, which raises `TypeError`; non-comparable
`token_estimate` values (a string and an integer) raise `TypeError` in the
chained comparison. -/
theorem c2_counterexample :
    exOk (validate_frontmatter [("name", Val.int 5)] (initResult "p")) = false
    ∧ exOk (validate_frontmatter
        [("token_estimate",
          Val.map [("min", Val.str "a"), ("typical", Val.int 5), ("max", Val.int 20)])]
        (initResult "p")) = false :=
  ⟨rfl, rfl⟩

/-- Witness for C2 at a concrete well-typed metadata map. -/
theorem c2_witness :
    ∃ res extra, validate_frontmatter
        [("name", Val.str "my-skill"), ("description", Val.str "d"), ("version", Val.str "1.0.0")]
        (initResult "p") = .ok res
      ∧ res.issues = (initResult "p").issues ++ extra
      ∧ res.skill_path = (initResult "p").skill_path
      ∧ (res.metadata = (initResult "p").metadata
         ∨ ∃ kws, res.metadata = setMeta (initResult "p").metadata "keywords" (MetaVal.strs kws)) :=
  c2_rules_total_when_well_typed.1
    [("name", Val.str "my-skill"), ("description", Val.str "d"), ("version", Val.str "1.0.0")]
    (initResult "p") (by decide)

/-- The keyword search fails when the label occurs nowhere. -/
theorem kwSearch_none (l : List Char) (h : hasLabel l = false) : kwSearch l = none := by
  induction l with
  | nil => rfl
  | cons c t ih =>
      rw [hasLabel] at h
      simp only [Bool.or_eq_false_iff] at h
      cases hk : kwLabelAt (c :: t) with
      | none => simp only [kwSearch, hk]; exact ih h.2
      | some rest => rw [hk] at h; simp at h

/-- C7 (amended): keyword extraction returns the empty sequence when no
case-insensitive `Keywords:`/`Keyword:` label exists; on the example
description it yields `["a", "b"]`, records them in the result metadata and
emits exactly one keyword-count `warning`; terms are trimmed, kept in order
and not deduplicated.  The amendment drops the claim's "from the remainder
of that logical line only": as `c7_counterexample` shows, the greedy `\s*`
of the pattern crosses newlines, so the list is taken from the first line
bearing non-whitespace text at or after the label. -/
theorem c7_keyword_extraction :
    (∀ desc : String, hasLabel desc.data = false → extract_keywords desc = [])
    ∧ extract_keywords "Does X. Keywords: a, b" = ["a", "b"]
    ∧ (∃ res, validate_frontmatter
          [("name", Val.str "x"), ("description", Val.str "Does X. Keywords: a, b"),
           ("version", Val.str "1.0.0")] (initResult "p") = .ok res
        ∧ res.issues.countP
            (fun i => decide (i.message = "Description has 2 keywords, recommend at least 3")) = 1
        ∧ res.metadata.lookup "keywords" = some (MetaVal.strs ["a", "b"]))
    ∧ extract_keywords "Keywords: a, a" = ["a", "a"] := by
  refine ⟨?_, by decide, ⟨_, rfl, by rfl, by rfl⟩, by decide⟩
  intro desc h
  simp only [extract_keywords, kwSearch_none desc.data h]

/-- C7 counterexample: for the description `"Keywords:\nx, y"`, the
remainder of the label's logical line is empty (second conjunct), yet
extraction returns `["x", "y"]` from the following line — the claim's
"from the remainder of that logical line only" predicts an empty result
here. -/
theorem c7_counterexample :
    extract_keywords "Keywords:\nx, y" = ["x", "y"]
    ∧ splitOnChar '\n' "Keywords:\nx, y".data = ["Keywords:".data, "x, y".data] :=
  ⟨by decide, by decide⟩

/-- Witness for C7's no-label conjunct at a concrete description. -/
theorem c7_witness : extract_keywords "hi" = [] :=
  c7_keyword_extraction.1 "hi" (by decide)

/-- The batch loop over an appended document list splits into the two
sub-batches when both succeed. -/
theorem mapMEx_append (f : α → Except Unit β) (l1 l2 : List α) (rs1 rs2 : List β)
    (h1 : mapMEx f l1 = .ok rs1) (h2 : mapMEx f l2 = .ok rs2) :
    mapMEx f (l1 ++ l2) = .ok (rs1 ++ rs2) := by
  induction l1 generalizing rs1 with
  | nil =>
      simp only [mapMEx] at h1
      cases h1
      simpa using h2
  | cons a t ih =>
      rw [mapMEx] at h1
      cases hfa : f a with
      | error e => rw [hfa] at h1; simp at h1
      | ok b =>
          rw [hfa] at h1
          cases hmt : mapMEx f t with
          | error e => rw [hmt] at h1; simp at h1
          | ok bs =>
              rw [hmt] at h1
              simp only [Except.ok.injEq] at h1
              subst h1
              show (match f a with
                | Except.error e => Except.error e
                | Except.ok b =>
                    match mapMEx f (t ++ l2) with
                    | Except.error e => Except.error e
                    | Except.ok bs => Except.ok (b :: bs)) = Except.ok ((b :: bs) ++ rs2)
              rw [hfa, ih bs hmt]
              rfl

/-- A successful batch yields one result per input. -/
theorem mapMEx_length (f : α → Except Unit β) (l : List α) (rs : List β)
    (h : mapMEx f l = .ok rs) : rs.length = l.length := by
  induction l generalizing rs with
  | nil => simp only [mapMEx] at h; cases h; rfl
  | cons a t ih =>
      rw [mapMEx] at h
      cases hfa : f a with
      | error e => rw [hfa] at h; simp at h
      | ok b =>
          rw [hfa] at h
          cases hmt : mapMEx f t with
          | error e => rw [hmt] at h; simp at h
          | ok bs =>
              rw [hmt] at h
              simp only [Except.ok.injEq] at h
              subst h
              simp [ih bs hmt]

/-- C8 (amended): a document whose primary file is missing yields a single
terminal `error` Finding with `valid = false` and no further rules run; in
a batch, every document that completes is evaluated normally and
independently, one result per identifier in input order — provided no
document's validation raises (the proviso `c8_counterexample` forces: an
uncaught `TypeError` aborts the whole loop). -/
theorem c8_batch_independence (yaml : String → Except Unit Val) (p : String) (d : Doc)
    (h1 : d.isDir = true) (h2 : d.hasSkillMd = false) :
    validate_skill yaml p d = .ok (missingResult p)
    ∧ (missingResult p).valid = false
    ∧ (missingResult p).issues.length = 1
    ∧ (∀ i ∈ (missingResult p).issues, i.severity = Severity.error)
    ∧ ∀ pre post rs1 rs2, runBatch yaml pre = .ok rs1 → runBatch yaml post = .ok rs2 →
        runBatch yaml (pre ++ (p, d) :: post) = .ok (rs1 ++ missingResult p :: rs2)
        ∧ (rs1 ++ missingResult p :: rs2).length = pre.length + 1 + post.length := by
  have hskill : validate_skill yaml p d = .ok (missingResult p) := by
    simp only [validate_skill, validate_structure, h1, h2]
    rfl
  refine ⟨hskill, rfl, rfl, ?_, ?_⟩
  · intro i hi
    simp [missingResult] at hi
    rw [hi]
  · intro pre post rs1 rs2 hb1 hb2
    have hcons : mapMEx (fun pd => validate_skill yaml pd.1 pd.2) ((p, d) :: post)
        = .ok (missingResult p :: rs2) := by
      rw [mapMEx]
      rw [show validate_skill yaml (p, d).1 (p, d).2 = .ok (missingResult p) from hskill]
      rw [show mapMEx (fun pd => validate_skill yaml pd.1 pd.2) post = .ok rs2 from hb2]
    refine ⟨mapMEx_append _ pre ((p, d) :: post) rs1 (missingResult p :: rs2) hb1 hcons, ?_⟩
    have e1 := mapMEx_length _ pre rs1 hb1
    have e2 := mapMEx_length _ post rs2 hb2
    simp [e1, e2]
    omega

/-- C8 counterexample: in a batch of three documents where documents 1 and
3 merely lack their primary file but document 2's frontmatter carries a
non-string `name`, the `TypeError` propagates out of the loop: the batch
produces no results at all, contradicting "one ValidationResult is produced
per identifier". -/
theorem c8_counterexample :
    runBatch (fun s => if s = "name: 5" then .ok (.map [("name", Val.int 5)]) else .ok .null)
      [("s1", ⟨true, false, true, true, .ok ""⟩),
       ("s2", ⟨true, true, true, true, .ok "---\nname: 5\n---\nbody"⟩),
       ("s3", ⟨true, false, true, true, .ok ""⟩)] = .error () := by
  rfl

/-- Witness for C8: a batch of three documents, the middle one missing its
primary file, produces exactly three results in order. -/
theorem c8_witness :
    runBatch (fun _ => .ok Val.null)
      [("s1", ⟨true, false, true, true, .ok ""⟩), ("s2", ⟨true, false, true, true, .ok ""⟩),
       ("s3", ⟨true, false, true, true, .ok ""⟩)]
      = .ok [missingResult "s1", missingResult "s2", missingResult "s3"]
    ∧ ([missingResult "s1", missingResult "s2", missingResult "s3"] :
        List ValidationResult).length = 3 := by
  have h := (c8_batch_independence (fun _ => .ok Val.null) "s2"
      ⟨true, false, true, true, .ok ""⟩ rfl rfl).2.2.2.2
      [("s1", ⟨true, false, true, true, .ok ""⟩)] [("s3", ⟨true, false, true, true, .ok ""⟩)]
      [missingResult "s1"] [missingResult "s3"] (by rfl) (by rfl)
  exact ⟨h.1, rfl⟩
